import Mathlib

/-!
# Verification of the arcade-combat simulation core (`main.py`)

A shallow embedding, over exact rational arithmetic, of the parts of the
simulation engine that the specification's testable properties talk about:
the fixed-timestep scheduler, the circle-collision primitives, position
wraparound, bullet updates, the particle pool, the combo system, the
finisher meter and the finisher execution state machine.

Python floats are modelled as `ℚ`, Python ints as `Int`/`Nat`.  Calls into
the math library (`math.sin`/`math.cos`, float exponentiation) are modelled
as explicit functional parameters, since their values never matter for the
properties proved here.
-/

namespace AC1

/-! ## Configuration constants (class `Cfg` in `main.py`) -/

/-- `Cfg.PHYSICS_DT = 1 / 60.0`. -/
def PHYSICS_DT : ℚ := 1 / 60

/-- `Cfg.fps = 60`. -/
def fps : ℤ := 60

/-- Frame-delta cap used in `update_game_state`: `dt = min(dt_raw, 0.05)`. -/
def FRAME_CAP : ℚ := 5 / 100

/-- `Cfg.finisher_lock_on_time = 30`. -/
def finisher_lock_on_time : ℤ := 30

/-- `Cfg.finisher_pre_impact_time = 6`. -/
def finisher_pre_impact_time : ℤ := 6

/-- `Cfg.finisher_impact_time = 60`. -/
def finisher_impact_time : ℤ := 60

/-- `Cfg.finisher_post_impact_time = 30`. -/
def finisher_post_impact_time : ℤ := 30

/-- `Cfg.finisher_lock_on_scale = 0.5`. -/
def finisher_lock_on_scale : ℚ := 1 / 2

/-- `Cfg.finisher_time_scale = 0.1`. -/
def finisher_time_scale : ℚ := 1 / 10

/-- `Cfg.finisher_shockwave_radius = 200`. -/
def finisher_shockwave_radius : ℚ := 200

/-- `Cfg.combo_timeout = 180`. -/
def combo_timeout : ℚ := 180

/-- `Cfg.asteroid_min_size = 1`. -/
def asteroid_min_size : ℤ := 1

/-- `Cfg.asteroid_max_size = 3`. -/
def asteroid_max_size : ℤ := 3

/-- `Cfg.asteroid_split_count = 2`. -/
def asteroid_split_count : ℕ := 2

/-! ## Fixed-timestep scheduler (`update_game_state`, lines 7059–7103)

The physics accumulator receives the capped frame delta and the tick loop
`while accumulator >= PHYSICS_DT and physics_updates < 4` subtracts one
`PHYSICS_DT` per iteration.  We model the loop by its remaining iteration
budget (4 at loop entry). -/

/-- The physics-tick loop of `update_game_state`: starting from accumulator
`acc` with `fuel` loop iterations still allowed, repeatedly subtract
`PHYSICS_DT` while `acc ≥ PHYSICS_DT`, and return the final accumulator. -/
def physLoop : ℚ → ℕ → ℚ
  | acc, 0 => acc
  | acc, fuel + 1 => if PHYSICS_DT ≤ acc then physLoop (acc - PHYSICS_DT) fuel else acc

/-- One frame call of the scheduler, acting on the physics accumulator:
the raw elapsed delta is capped at 50 ms, added to the accumulator, and the
tick loop (at most 4 iterations) drains it. -/
def frameAcc (acc dtRaw : ℚ) : ℚ := physLoop (acc + min dtRaw FRAME_CAP) 4

/-- The render-interpolation fraction computed after the loop:
`render_alpha = physics_accumulator / PHYSICS_DT`. -/
def renderAlpha (acc : ℚ) : ℚ := acc / PHYSICS_DT

/-- The accumulator after a whole sequence of frames, starting from the
initial value `0.0` of `g_game_state["physics_accumulator"]`. -/
def accAfterFrames (dts : List ℚ) : ℚ := dts.foldl frameAcc 0

/-! ## Collision primitives (`wrap_position`, `distance_squared`,
`check_collision`, lines 867–921) -/

/-- Python's float modulo for a positive divisor:
`a % w = a - w * ⌊a / w⌋`, the representative in `[0, w)`. -/
def pymod (a w : ℚ) : ℚ := a - w * ⌊a / w⌋

/-- A position in the arena. -/
structure Pos where
  x : ℚ
  y : ℚ
deriving DecidableEq, Repr

/-- `wrap_position`: both coordinates re-enter through modulo by the screen
dimensions. -/
def wrap_position (w h : ℚ) (p : Pos) : Pos :=
  { x := pymod p.x w, y := pymod p.y h }

/-- `distance_squared(obj1, obj2) = dx*dx + dy*dy` on the raw coordinates. -/
def distance_squared (p q : Pos) : ℚ :=
  (p.x - q.x) * (p.x - q.x) + (p.y - q.y) * (p.y - q.y)

/-- `check_collision`: strict comparison of the raw squared distance against
the squared radius sum. -/
def check_collision (p q : Pos) (r1 r2 : ℚ) : Bool :=
  distance_squared p q < (r1 + r2) ^ 2

/-- Spec-side definition (for claim C10 only): the toroidal distance along
one axis, the smaller of the raw gap and the wrapped gap. -/
def torusGapX (w x1 x2 : ℚ) : ℚ := min |x1 - x2| (w - |x1 - x2|)

/-! ## Bullet update (`update_bullets`, lines 3978–4007)

Bullets advance by `v * time_scale` and are then filtered: a bullet
survives iff `life > 0 and 0 <= x <= width and 0 <= y <= height`.
Bullet positions are never wrapped. -/

/-- A player bullet (`Bullet` dataclass): position, velocity, lifetime.
The trail is render-only bookkeeping and is omitted. -/
structure Bullet where
  x : ℚ
  y : ℚ
  vx : ℚ
  vy : ℚ
  life : ℚ
deriving DecidableEq, Repr

/-- `update_timer`: count a timed value down by `decrement * time_scale`,
clamped at zero. -/
def update_timer (timeScale : ℚ) (value : ℚ) (decrement : ℚ := 1) : ℚ :=
  if 0 < value then max 0 (value - decrement * timeScale) else 0

/-- The per-bullet body of `update_bullets`: integrate position by
velocity times the global time scale and count the lifetime down. -/
def moveBullet (timeScale : ℚ) (b : Bullet) : Bullet :=
  { b with
    x := b.x + b.vx * timeScale
    y := b.y + b.vy * timeScale
    life := update_timer timeScale b.life }

/-- `update_bullets`: move every bullet, then keep the bullets with
`life > 0 and 0 <= x <= width and 0 <= y <= height`. -/
def update_bullets (w h timeScale : ℚ) (bs : List Bullet) : List Bullet :=
  (bs.map (moveBullet timeScale)).filter
    (fun b => 0 < b.life ∧ 0 ≤ b.x ∧ b.x ≤ w ∧ 0 ≤ b.y ∧ b.y ≤ h)

/-! ### Scheduler lemmas -/

theorem PHYSICS_DT_pos : (0 : ℚ) < PHYSICS_DT := by norm_num [PHYSICS_DT]

/-- The tick loop can only terminate below one tick of accumulated time,
provided it entered with less than `fuel + 1` ticks' worth. -/
theorem physLoop_bound (fuel : ℕ) :
    ∀ acc : ℚ, 0 ≤ acc → acc < (fuel + 1 : ℚ) * PHYSICS_DT →
      0 ≤ physLoop acc fuel ∧ physLoop acc fuel < PHYSICS_DT := by
  induction fuel with
  | zero =>
    intro acc h0 h1
    simpa [physLoop] using ⟨h0, by simpa using h1⟩
  | succ n ih =>
    intro acc h0 h1
    rw [physLoop]
    by_cases hge : PHYSICS_DT ≤ acc
    · rw [if_pos hge]
      refine ih _ (by linarith) ?_
      have : ((n : ℚ) + 1 + 1) * PHYSICS_DT = (n + 1 : ℚ) * PHYSICS_DT + PHYSICS_DT := by
        ring
      push_cast at h1 ⊢
      linarith
    · rw [if_neg hge]
      exact ⟨h0, lt_of_not_le hge⟩

/-- One frame preserves the accumulator invariant `0 ≤ acc < PHYSICS_DT`,
for any nonnegative raw delta, thanks to the 50 ms cap and the 4-tick
budget. -/
theorem frameAcc_preserves {acc dtRaw : ℚ} (h0 : 0 ≤ acc) (h1 : acc < PHYSICS_DT)
    (hdt : 0 ≤ dtRaw) : 0 ≤ frameAcc acc dtRaw ∧ frameAcc acc dtRaw < PHYSICS_DT := by
  have hcap : min dtRaw FRAME_CAP ≤ FRAME_CAP := min_le_right _ _
  have hnn : 0 ≤ min dtRaw FRAME_CAP := le_min hdt (by norm_num [FRAME_CAP])
  refine physLoop_bound 4 _ (by linarith) ?_
  have : PHYSICS_DT + FRAME_CAP ≤ (4 + 1 : ℚ) * PHYSICS_DT := by
    norm_num [PHYSICS_DT, FRAME_CAP]
  push_cast
  linarith

/-- Claim C1: starting from the initial accumulator `0.0`, after every frame
of any sequence of nonnegative raw frame deltas (each capped at 50 ms by the
scheduler, with at most 4 physics ticks per frame), the accumulator satisfies
`0 ≤ accumulator < PHYSICS_DT`, and the render-interpolation fraction
`accumulator / PHYSICS_DT` lies in `[0, 1)`. -/
theorem C1_accumulator_bound (dts : List ℚ) (hdts : ∀ d ∈ dts, 0 ≤ d) :
    0 ≤ accAfterFrames dts ∧ accAfterFrames dts < PHYSICS_DT ∧
      0 ≤ renderAlpha (accAfterFrames dts) ∧ renderAlpha (accAfterFrames dts) < 1 := by
  have key : ∀ (l : List ℚ) (acc : ℚ), (∀ d ∈ l, 0 ≤ d) →
      0 ≤ acc → acc < PHYSICS_DT →
      0 ≤ l.foldl frameAcc acc ∧ l.foldl frameAcc acc < PHYSICS_DT := by
    intro l
    induction l with
    | nil => intro acc _ h0 h1; exact ⟨h0, h1⟩
    | cons d t ih =>
      intro acc hl h0 h1
      have hd : 0 ≤ d := hl d (List.mem_cons_self d t)
      have step := frameAcc_preserves h0 h1 hd
      exact ih _ (fun x hx => hl x (List.mem_cons_of_mem d hx)) step.1 step.2
  have main := key dts 0 hdts le_rfl PHYSICS_DT_pos
  refine ⟨main.1, main.2, ?_, ?_⟩
  · exact div_nonneg main.1 PHYSICS_DT_pos.le
  · exact (div_lt_one PHYSICS_DT_pos).mpr main.2

/-- Witness for C1: a concrete three-frame run (30 ms, 50 ms, 20 ms). -/
theorem C1_accumulator_bound_witness :
    (∀ d ∈ ([3/100, 5/100, 2/100] : List ℚ), 0 ≤ d) ∧
      (0 ≤ accAfterFrames [3/100, 5/100, 2/100] ∧
        accAfterFrames [3/100, 5/100, 2/100] < PHYSICS_DT ∧
        0 ≤ renderAlpha (accAfterFrames [3/100, 5/100, 2/100]) ∧
        renderAlpha (accAfterFrames [3/100, 5/100, 2/100]) < 1) :=
  ⟨by norm_num, C1_accumulator_bound [3/100, 5/100, 2/100] (by norm_num)⟩

/-! ### Collision-primitive lemmas -/

theorem pymod_eq_fract (a w : ℚ) (hw : w ≠ 0) :
    pymod a w = w * Int.fract (a / w) := by
  unfold pymod Int.fract
  field_simp

/-- For a positive divisor, `pymod` lands in `[0, w)`. -/
theorem pymod_bound (a w : ℚ) (hw : 0 < w) : 0 ≤ pymod a w ∧ pymod a w < w := by
  rw [pymod_eq_fract a w hw.ne.symm]
  constructor
  · exact mul_nonneg hw.le (Int.fract_nonneg _)
  · calc w * Int.fract (a / w) < w * 1 :=
          (mul_lt_mul_left hw).mpr (Int.fract_lt_one _)
    _ = w := mul_one w

/-- Claim C10: the collision test uses the raw planar distance with a strict
inequality and no toroidal wrapping, so two entities adjacent only across the
wrap seam (`x = 1` and `x = w − 1` at equal `y`, toroidal gap 2) test as not
colliding whenever their combined radius exceeds 2 but does not reach the raw
gap `w − 2`. -/
theorem C10_seam_misses (w y r1 r2 : ℚ) (h2 : 2 < r1 + r2) (hfar : r1 + r2 ≤ w - 2) :
    check_collision ⟨1, y⟩ ⟨w - 1, y⟩ r1 r2 = false ∧
      torusGapX w 1 (w - 1) < r1 + r2 := by
  constructor
  · have hd : distance_squared ⟨1, y⟩ ⟨w - 1, y⟩ = (w - 2) ^ 2 := by
      simp only [distance_squared]
      ring
    simp only [check_collision, hd, decide_eq_false_iff_not, not_lt]
    nlinarith
  · have habs : |(1 : ℚ) - (w - 1)| = w - 2 := by
      rw [abs_of_nonpos (by linarith)]
      ring
    have : torusGapX w 1 (w - 1) = 2 := by
      rw [torusGapX, habs]
      have : w - (w - 2) = 2 := by ring
      rw [this]
      exact min_eq_right (by linarith)
    rw [this]
    exact h2

/-- Witness for C10: arena width 800, combined radius 18, toroidal gap 2. -/
theorem C10_seam_misses_witness :
    ((2 : ℚ) < 10 + 8 ∧ (10 : ℚ) + 8 ≤ 800 - 2) ∧
      (check_collision ⟨1, 100⟩ ⟨800 - 1, 100⟩ 10 8 = false ∧
        torusGapX 800 1 (800 - 1) < 10 + 8) :=
  ⟨by norm_num, C10_seam_misses 800 100 10 8 (by norm_num) (by norm_num)⟩

/-! ### Wraparound (claim C8)

The claim asserts `0 ≤ x < width` for **every** entity after **any**
position update.  Entities updated through `wrap_position` (ship, asteroids,
enemies, powerups — `update_entity_physics` with `wrap`) do satisfy the
half-open bound, but `update_bullets` never wraps: it removes bullets
outside the **closed** box `0 ≤ x ≤ width`, so a surviving bullet can sit
exactly on `x = width`. -/

/-- Counterexample to C8 as stated: a bullet at `x = 799` with velocity
`vx = 1` (width 800, time scale 1) survives `update_bullets` at
`x = 800 = arena_width`, violating `x < arena_width`; it was removed-or-kept,
never wrapped. -/
theorem C8_counterexample :
    update_bullets 800 600 1 [⟨799, 100, 1, 0, 10⟩] =
        [⟨800, 100, 1, 0, 9⟩] ∧ ¬((800 : ℚ) < 800) := by
  constructor
  · simp [update_bullets, moveBullet, update_timer, List.filter]
    norm_num
  · exact lt_irrefl _

/-- Claim C8, amended: entities whose position update goes through
`wrap_position` (ship, asteroids, enemies, powerups) satisfy
`0 ≤ x < arena_width` and `0 ≤ y < arena_height` afterwards; bullets are
never wrapped — `update_bullets` instead discards any bullet outside the
closed box, so every surviving bullet satisfies the closed bounds
`0 ≤ x ≤ arena_width`, `0 ≤ y ≤ arena_height` (with `x = arena_width`
attainable). -/
theorem C8_amended_wrap_bounds (w h ts : ℚ) (hw : 0 < w) (hh : 0 < h)
    (p : Pos) (bs : List Bullet) :
    (0 ≤ (wrap_position w h p).x ∧ (wrap_position w h p).x < w ∧
      0 ≤ (wrap_position w h p).y ∧ (wrap_position w h p).y < h) ∧
    ∀ b ∈ update_bullets w h ts bs,
      0 < b.life ∧ 0 ≤ b.x ∧ b.x ≤ w ∧ 0 ≤ b.y ∧ b.y ≤ h := by
  constructor
  · have hx := pymod_bound p.x w hw
    have hy := pymod_bound p.y h hh
    exact ⟨hx.1, hx.2, hy.1, hy.2⟩
  · intro b hb
    have := List.of_mem_filter hb
    simpa using of_decide_eq_true this

/-- Witness for C8 (amended): width 800, height 600, a position needing a
wrap and one live in-range bullet. -/
theorem C8_amended_wrap_bounds_witness :
    ((0 : ℚ) < 800 ∧ (0 : ℚ) < 600) ∧
      ((0 ≤ (wrap_position 800 600 ⟨-5, 601⟩).x ∧
          (wrap_position 800 600 ⟨-5, 601⟩).x < 800 ∧
          0 ≤ (wrap_position 800 600 ⟨-5, 601⟩).y ∧
          (wrap_position 800 600 ⟨-5, 601⟩).y < 600) ∧
        ∀ b ∈ update_bullets 800 600 1 [⟨10, 20, 1, 1, 5⟩],
          0 < b.life ∧ 0 ≤ b.x ∧ b.x ≤ 800 ∧ 0 ≤ b.y ∧ b.y ≤ 600) :=
  ⟨⟨by norm_num, by norm_num⟩,
    C8_amended_wrap_bounds 800 600 1 (by norm_num) (by norm_num) ⟨-5, 601⟩
      [⟨10, 20, 1, 1, 5⟩]⟩

/-! ## Finisher execution state machine
(`start_finisher_execution`, lines 2882–2926; `update_finisher`,
lines 2929–3036; `apply_shockwave_damage`, lines 3039–3089)

The finisher dictionary is modelled as a structure.  `target` alive-ness
(`target and target in g_enemies`) is a boolean; the sweep count returned by
the step function records how many times `apply_shockwave_damage` was
invoked during that call.  The global scale factor is a parameter. -/

inductive FinPhase where
  | idle
  | lockOn
  | preImpact
  | impact
  | postImpact
deriving DecidableEq, Repr

structure FinisherState where
  executing : Bool
  phase : FinPhase
  executionTimer : ℤ
  targetAlive : Bool
  lockOnProgress : ℚ
  shockwaveRadius : ℚ
  meter : ℚ
  ready : Bool
  timeScale : ℚ
  shipDashing : ℤ
deriving DecidableEq, Repr

/-- `start_finisher_execution`: flags the execution, enters LockOn with its
countdown, records the (live) target and drops the global time scale to the
lock-on slow-motion value.  (Ship-angle snap, impact-point computation and
the invulnerability extension touch fields outside this structure.) -/
def start_finisher_execution (s : FinisherState) : FinisherState :=
  { s with
    executing := true
    phase := .lockOn
    executionTimer := finisher_lock_on_time
    targetAlive := true
    lockOnProgress := 0
    timeScale := finisher_lock_on_scale }

/-- The `damage_points = [0.3, 0.6]` checkpoints of the Impact phase. -/
def damage_points : List ℚ := [3/10, 6/10]

/-- The body of the `if finisher_state["execution_timer"] <= 0:` block of
`update_finisher`: the `elif` chain over the current phase.  The second
component counts the `apply_shockwave_damage` invocations made. -/
def finisherPhaseBlock (scale : ℚ) (s : FinisherState) : FinisherState × ℕ :=
  match s.phase with
  | .lockOn =>
      ({ s with
          phase := .preImpact
          executionTimer := finisher_pre_impact_time
          meter := 0
          ready := false
          shipDashing := finisher_pre_impact_time + finisher_impact_time +
            finisher_post_impact_time }, 0)
  | .preImpact =>
      let s1 := { s with
          phase := .impact
          executionTimer := finisher_impact_time
          timeScale := finisher_time_scale }
      if s1.targetAlive then
        ({ s1 with shockwaveRadius := 10 * scale, targetAlive := false }, 0)
      else (s1, 0)
  | .impact =>
      let maxRadius := finisher_shockwave_radius * scale
      let progress : ℚ := 1 - (s.executionTimer : ℚ) / (finisher_impact_time : ℚ)
      let s1 := { s with
          shockwaveRadius := 10 * scale + (maxRadius - 10 * scale) * progress }
      let sweeps := (damage_points.filter
          (fun p => p ≤ progress ∧ progress < p + 2/100)).length
      if s1.executionTimer ≤ 1 then
        ({ s1 with
            phase := .postImpact
            executionTimer := finisher_post_impact_time
            timeScale := 1 }, sweeps)
      else (s1, sweeps)
  | .postImpact =>
      ({ s with
          executing := false
          phase := .idle
          targetAlive := false
          shockwaveRadius := 0
          lockOnProgress := 0
          shipDashing := 0 }, 0)
  | .idle => (s, 0)

/-- The trailing `if finisher_state["phase"] == FinisherPhase.LOCK_ON:`
update of `lock_on_progress`, executed every call after the transition
block. -/
def lockOnTail (s : FinisherState) : FinisherState :=
  if s.phase = .lockOn then
    { s with
      lockOnProgress := 1 - (s.executionTimer : ℚ) / (finisher_lock_on_time : ℚ) }
  else s

/-- `update_finisher`: early-return unless executing; decrement the
countdown; run the phase `elif` chain only when the countdown has reached
zero; finally refresh the lock-on progress. -/
def update_finisher (scale : ℚ) (s : FinisherState) : FinisherState × ℕ :=
  if s.executing then
    let s1 := { s with executionTimer := s.executionTimer - 1 }
    let r := if s1.executionTimer ≤ 0 then finisherPhaseBlock scale s1 else (s1, 0)
    (lockOnTail r.1, r.2)
  else (s, 0)

/-- Iterated finisher steps (one per physics tick). -/
def finisherIter (scale : ℚ) (s : FinisherState) : ℕ → FinisherState
  | 0 => s
  | n + 1 => (update_finisher scale (finisherIter scale s n)).1

/-! ### Claim C2: the Impact-phase shockwave block is dead code

In the source, the `elif finisher_state["phase"] == FinisherPhase.IMPACT:`
branch — which grows the shockwave radius with `progress` and calls
`apply_shockwave_damage` inside the `0.3`/`0.6` checkpoint windows — is
nested inside `if finisher_state["execution_timer"] <= 0:`.  It therefore
runs exactly once per Impact phase, on the tick where the countdown reaches
zero, at `progress = 1.0`; both windows `[0.3, 0.32)` and `[0.6, 0.62)` lie
strictly below `1.0`, so the sweep never fires, and the nested
`execution_timer <= 1` check immediately advances to PostImpact. -/

theorem finisherPhaseBlock_no_sweep (scale : ℚ) (s : FinisherState)
    (h : s.executionTimer ≤ 0) : (finisherPhaseBlock scale s).2 = 0 := by
  cases hph : s.phase <;> simp only [finisherPhaseBlock, hph]
  · simp [apply_ite Prod.snd]
  · have ht : (s.executionTimer : ℚ) ≤ 0 := by exact_mod_cast h
    have h60 : ((finisher_impact_time : ℤ) : ℚ) = 60 := by
      norm_num [finisher_impact_time]
    have hprog : (1 : ℚ) ≤ 1 - (s.executionTimer : ℚ) / (finisher_impact_time : ℚ) := by
      rw [h60]
      linarith [ht]
    have hfilter :
        (damage_points.filter
          (fun p => p ≤ 1 - (s.executionTimer : ℚ) / (finisher_impact_time : ℚ) ∧
            1 - (s.executionTimer : ℚ) / (finisher_impact_time : ℚ) < p + 2/100)).length
          = 0 := by
      rw [List.length_eq_zero, List.filter_eq_nil_iff]
      intro a ha
      simp only [damage_points, List.mem_cons, List.not_mem_nil, or_false] at ha
      simp only [decide_eq_true_eq, not_and, not_lt]
      intro _
      rcases ha with rfl | rfl <;> linarith
    simpa [apply_ite Prod.snd] using hfilter

/-- Claim C2 (code bug): no call of `update_finisher` ever performs a
shockwave damage sweep — `(update_finisher scale s).2 = 0` for every state —
so no Impact phase applies the 30 % or 60 % checkpoint damage even once,
contradicting the claimed exactly-once-per-checkpoint behaviour. -/
theorem C2_shockwave_never_fires (scale : ℚ) (s : FinisherState) :
    (update_finisher scale s).2 = 0 := by
  unfold update_finisher
  split
  · dsimp only
    split
    · exact finisherPhaseBlock_no_sweep _ _ (by assumption)
    · rfl
  · rfl

/-! ### Claim C4: the phase sequence of a triggered execution

The control flow of `update_finisher` — which phase comes next, when the
countdown fires, whether the execution flag is up — depends only on the
fields `executing`, `phase`, `execution_timer` and the target's alive-ness.
We project the state machine onto those fields; the projected machine
simulates the full one and its 126-tick trace from a fresh trigger is then
checked exhaustively. -/

structure FinisherCtrl where
  executing : Bool
  phase : FinPhase
  timer : ℤ
  targetAlive : Bool
deriving DecidableEq, Repr

/-- Projection of the finisher state onto its control fields. -/
def ctrlOf (s : FinisherState) : FinisherCtrl :=
  ⟨s.executing, s.phase, s.executionTimer, s.targetAlive⟩

/-- The phase `elif` chain, projected onto the control fields. -/
def ctrlPhaseBlock (c : FinisherCtrl) : FinisherCtrl :=
  match c.phase with
  | .lockOn => { c with phase := .preImpact, timer := finisher_pre_impact_time }
  | .preImpact =>
      { c with phase := .impact, timer := finisher_impact_time, targetAlive := false }
  | .impact =>
      if c.timer ≤ 1 then
        { c with phase := .postImpact, timer := finisher_post_impact_time }
      else c
  | .postImpact => { c with executing := false, phase := .idle, targetAlive := false }
  | .idle => c

/-- `update_finisher`, projected onto the control fields. -/
def ctrlStep (c : FinisherCtrl) : FinisherCtrl :=
  if c.executing then
    if c.timer - 1 ≤ 0 then ctrlPhaseBlock { c with timer := c.timer - 1 }
    else { c with timer := c.timer - 1 }
  else c

/-- Iterated control steps. -/
def ctrlIter (c : FinisherCtrl) : ℕ → FinisherCtrl
  | 0 => c
  | n + 1 => ctrlStep (ctrlIter c n)

theorem ctrlOf_lockOnTail (s : FinisherState) : ctrlOf (lockOnTail s) = ctrlOf s := by
  unfold lockOnTail
  split <;> rfl

theorem ctrlOf_phaseBlock (scale : ℚ) (s : FinisherState) :
    ctrlOf (finisherPhaseBlock scale s).1 = ctrlPhaseBlock (ctrlOf s) := by
  cases hph : s.phase <;>
    simp only [finisherPhaseBlock, ctrlPhaseBlock, ctrlOf, hph]
  · split
    · rfl
    · rename_i hta
      simp only [Bool.not_eq_true] at hta
      rw [hta]
  · by_cases ht : s.executionTimer ≤ 1 <;> simp [ht]

/-- The control projection simulates one full step. -/
theorem ctrlOf_update (scale : ℚ) (s : FinisherState) :
    ctrlOf (update_finisher scale s).1 = ctrlStep (ctrlOf s) := by
  by_cases hex : s.executing
  · by_cases ht : s.executionTimer - 1 ≤ 0
    · have hl : (update_finisher scale s).1 =
          lockOnTail (finisherPhaseBlock scale
            { s with executionTimer := s.executionTimer - 1 }).1 := by
        simp [update_finisher, hex, ht]
      have hr : ctrlStep (ctrlOf s) =
          ctrlPhaseBlock (ctrlOf { s with executionTimer := s.executionTimer - 1 }) := by
        simp [ctrlStep, ctrlOf, hex, ht]
      rw [hl, hr, ctrlOf_lockOnTail, ctrlOf_phaseBlock]
    · have hl : (update_finisher scale s).1 =
          lockOnTail { s with executionTimer := s.executionTimer - 1 } := by
        simp [update_finisher, hex, ht]
      have hr : ctrlStep (ctrlOf s) =
          ctrlOf { s with executionTimer := s.executionTimer - 1 } := by
        simp [ctrlStep, ctrlOf, hex, ht]
      rw [hl, hr, ctrlOf_lockOnTail]
  · simp [update_finisher, ctrlStep, ctrlOf, hex]

theorem ctrlOf_finisherIter (scale : ℚ) (s : FinisherState) (n : ℕ) :
    ctrlOf (finisherIter scale s n) = ctrlIter (ctrlOf s) n := by
  induction n with
  | zero => rfl
  | succ n ih => simp [finisherIter, ctrlIter, ctrlOf_update, ih]

/-- The phase the specification expects `k` ticks after the trigger, with
the configured durations 30 (LockOn), 6 (PreImpact), 60 (Impact),
30 (PostImpact). -/
def expectedPhase (k : ℕ) : FinPhase :=
  if k < 30 then .lockOn
  else if k < 36 then .preImpact
  else if k < 96 then .impact
  else if k < 126 then .postImpact
  else .idle

/-- Exhaustive check of the 126-tick control trace from a fresh trigger. -/
theorem ctrl_trace_check :
    ∀ k, k < 127 →
      (ctrlIter ⟨true, .lockOn, finisher_lock_on_time, true⟩ k).phase = expectedPhase k ∧
      ((ctrlIter ⟨true, .lockOn, finisher_lock_on_time, true⟩ k).executing = true ↔
        k < 126) ∧
      ((ctrlIter ⟨true, .lockOn, finisher_lock_on_time, true⟩ (k + 1)).phase ≠
          (ctrlIter ⟨true, .lockOn, finisher_lock_on_time, true⟩ k).phase →
        (ctrlIter ⟨true, .lockOn, finisher_lock_on_time, true⟩ k).timer = 1) := by
  decide

theorem update_finisher_not_executing (scale : ℚ) (s : FinisherState)
    (h : s.executing = false) : (update_finisher scale s).1 = s := by
  simp [update_finisher, h]

/-- Claim C4: a triggered execution visits LockOn (ticks 0–29), PreImpact
(30–35), Impact (36–95), PostImpact (96–125) and Idle (from 126 on) in
exactly that order with no skips or repeats; `executing` is true precisely
until the PostImpact-to-Idle transition; and whenever the phase changes from
one tick to the next, the outgoing phase's countdown has just reached zero
(the pre-tick timer is 1, decremented to 0 inside that call). -/
theorem C4_finisher_phase_sequence (scale : ℚ) (s : FinisherState) :
    (∀ k, k < 127 →
      (finisherIter scale (start_finisher_execution s) k).phase = expectedPhase k ∧
      ((finisherIter scale (start_finisher_execution s) k).executing = true ↔
        k < 126) ∧
      ((finisherIter scale (start_finisher_execution s) (k + 1)).phase ≠
          (finisherIter scale (start_finisher_execution s) k).phase →
        (finisherIter scale (start_finisher_execution s) k).executionTimer = 1)) ∧
    (∀ n, 126 ≤ n →
      (finisherIter scale (start_finisher_execution s) n).phase = .idle ∧
      (finisherIter scale (start_finisher_execution s) n).executing = false) := by
  have hctrl : ∀ k, ctrlOf (finisherIter scale (start_finisher_execution s) k) =
      ctrlIter ⟨true, .lockOn, finisher_lock_on_time, true⟩ k := by
    intro k
    rw [ctrlOf_finisherIter]
    rfl
  have hphase : ∀ k, (finisherIter scale (start_finisher_execution s) k).phase =
      (ctrlIter ⟨true, .lockOn, finisher_lock_on_time, true⟩ k).phase :=
    fun k => congrArg FinisherCtrl.phase (hctrl k)
  have hexec : ∀ k, (finisherIter scale (start_finisher_execution s) k).executing =
      (ctrlIter ⟨true, .lockOn, finisher_lock_on_time, true⟩ k).executing :=
    fun k => congrArg FinisherCtrl.executing (hctrl k)
  have htimer : ∀ k,
      (finisherIter scale (start_finisher_execution s) k).executionTimer =
        (ctrlIter ⟨true, .lockOn, finisher_lock_on_time, true⟩ k).timer :=
    fun k => congrArg FinisherCtrl.timer (hctrl k)
  constructor
  · intro k hk
    obtain ⟨h1, h2, h3⟩ := ctrl_trace_check k hk
    refine ⟨(hphase k).trans h1, ?_, ?_⟩
    · rw [hexec k]
      exact h2
    · intro hne
      rw [htimer k]
      refine h3 ?_
      rw [← hphase (k + 1), ← hphase k]
      exact hne
  · have h126e :
        (finisherIter scale (start_finisher_execution s) 126).executing = false := by
      have h2 := (ctrl_trace_check 126 (by omega)).2.1
      rw [hexec 126]
      simpa using h2
    have h126p :
        (finisherIter scale (start_finisher_execution s) 126).phase = .idle := by
      have h1 := (ctrl_trace_check 126 (by omega)).1
      rw [hphase 126, h1]
      norm_num [expectedPhase]
    have hstable : ∀ n, 126 ≤ n →
        finisherIter scale (start_finisher_execution s) n =
          finisherIter scale (start_finisher_execution s) 126 := by
      intro n hn
      induction n, hn using Nat.le_induction with
      | base => rfl
      | succ m hm ih =>
        rw [show finisherIter scale (start_finisher_execution s) (m + 1) =
            (update_finisher scale
              (finisherIter scale (start_finisher_execution s) m)).1 from rfl,
          ih, update_finisher_not_executing _ _ h126e]
    intro n hn
    rw [hstable n hn]
    exact ⟨h126p, h126e⟩

/-- A concrete pre-trigger finisher state (idle, full meter, ready). -/
def finisherReadyState : FinisherState :=
  { executing := false
    phase := .idle
    executionTimer := 0
    targetAlive := false
    lockOnProgress := 0
    shockwaveRadius := 0
    meter := 100
    ready := true
    timeScale := 1
    shipDashing := 0 }

/-- Witness for C4: concrete checks at ticks 40 (Impact) and 130 (Idle). -/
theorem C4_finisher_phase_sequence_witness :
    (finisherIter 1 (start_finisher_execution finisherReadyState) 40).phase =
        expectedPhase 40 ∧
      ((finisherIter 1 (start_finisher_execution finisherReadyState) 40).executing =
          true ↔ 40 < 126) ∧
      (finisherIter 1 (start_finisher_execution finisherReadyState) 130).phase =
        .idle :=
  ⟨((C4_finisher_phase_sequence 1 finisherReadyState).1 40 (by omega)).1,
    ((C4_finisher_phase_sequence 1 finisherReadyState).1 40 (by omega)).2.1,
    ((C4_finisher_phase_sequence 1 finisherReadyState).2 130 (by omega)).1⟩

/-! ## Combo system (`add_combo`, lines 2762–2821; `update_combo_system`,
lines 4083–4103) and finisher-meter decay (`update_finisher_meter`,
lines 4106–4123) -/

/-- The `combo` sub-dictionary of the game state. -/
structure ComboState where
  current : ℤ
  timer : ℚ
  kills : ℤ
  maxCombo : ℤ
  pulse : ℚ
deriving DecidableEq, Repr

/-- `Cfg.combo_pulse_fade_rate = 2`. -/
def combo_pulse_fade_rate : ℚ := 2

/-- `Cfg.combo_medium_threshold = 5`. -/
def combo_medium_threshold : ℤ := 5

/-- `Cfg.combo_high_threshold = 10`. -/
def combo_high_threshold : ℤ := 10

/-- `Cfg.combo_fill_rates = {"base": 10, "medium": 15, "high": 20}`. -/
def combo_fill_rate_base : ℚ := 10

def combo_fill_rate_medium : ℚ := 15

def combo_fill_rate_high : ℚ := 20

/-- The combo-timeout half of `update_combo_system`: count the timer down;
when it hits zero, fold the current combo into the running maximum and reset
the counter and the kill streak. -/
def comboTimerStep (timeScale : ℚ) (c : ComboState) : ComboState :=
  if 0 < c.timer then
    let t := update_timer timeScale c.timer
    if t ≤ 0 then
      { c with
        timer := t
        maxCombo := if c.maxCombo < c.current then c.current else c.maxCombo
        current := 0
        kills := 0 }
    else { c with timer := t }
  else c

/-- The pulse-fade half of `update_combo_system`. -/
def comboPulseStep (timeScale : ℚ) (c : ComboState) : ComboState :=
  if 0 < c.pulse then
    { c with pulse := c.pulse - combo_pulse_fade_rate * timeScale }
  else c

/-- `update_combo_system`: timeout handling followed by pulse fade. -/
def update_combo_system (timeScale : ℚ) (c : ComboState) : ComboState :=
  comboPulseStep timeScale (comboTimerStep timeScale c)

/-- Iterated combo updates (one per `update_visual_effects` call). -/
def comboIter (timeScale : ℚ) (c : ComboState) : ℕ → ComboState
  | 0 => c
  | n + 1 => update_combo_system timeScale (comboIter timeScale c n)

/-- Combo state together with the finisher meter fields that `add_combo`
writes. -/
structure ComboFinisher where
  combo : ComboState
  meter : ℚ
  ready : Bool
deriving DecidableEq, Repr

/-- `add_combo` (meter-relevant part): reset the kill streak when starting a
fresh combo, bump the counter and the streak, restore the timer to
`combo_timeout`, and — unless the finisher is already ready — fill the meter
by the tier-dependent rate, capping at 100 and raising `ready` at the cap.
(The floating-text / pulse / screen-shake block that follows in the source
is cosmetic and not modelled.) -/
def add_combo (s : ComboFinisher) : ComboFinisher :=
  let c0 := s.combo
  let c1 := if c0.current = 0 then { c0 with kills := 0 } else c0
  let c2 := { c1 with
      current := c1.current + 1
      timer := combo_timeout
      kills := c1.kills + 1 }
  if s.ready then { s with combo := c2 }
  else
    let fillRate :=
      if combo_high_threshold ≤ c2.current then combo_fill_rate_high
      else if combo_medium_threshold ≤ c2.current then combo_fill_rate_medium
      else combo_fill_rate_base
    let m := min 100 (s.meter + fillRate)
    { combo := c2, meter := m, ready := if 100 ≤ m then true else s.ready }

/-- The slice of state read and written by `update_finisher_meter`. -/
structure MeterState where
  comboCurrent : ℤ
  meter : ℚ
  ready : Bool
deriving DecidableEq, Repr

/-- `update_finisher_meter`: while no combo is active and the meter is
positive, decay the meter by `(2.0 / fps) * time_scale` (clamped at 0) and
drop the ready flag as soon as the meter is below 100. -/
def update_finisher_meter (timeScale : ℚ) (s : MeterState) : MeterState :=
  if s.comboCurrent = 0 ∧ 0 < s.meter then
    let m := max 0 (s.meter - 2 / (fps : ℚ) * timeScale)
    { s with meter := m, ready := if m < 100 then false else s.ready }
  else s

/-- Iterated meter updates. -/
def meterIter (timeScale : ℚ) (s : MeterState) : ℕ → MeterState
  | 0 => s
  | n + 1 => update_finisher_meter timeScale (meterIter timeScale s n)

/-! ### Combo-decay lemmas (claim C7) -/

theorem comboPulseStep_fields (timeScale : ℚ) (c : ComboState) :
    (comboPulseStep timeScale c).current = c.current ∧
      (comboPulseStep timeScale c).timer = c.timer ∧
      (comboPulseStep timeScale c).kills = c.kills ∧
      (comboPulseStep timeScale c).maxCombo = c.maxCombo := by
  unfold comboPulseStep
  split <;> exact ⟨rfl, rfl, rfl, rfl⟩

/-- During the countdown (fewer than 180 elapsed ticks at time scale 1) the
combo fields are untouched and the timer reads `180 - n`. -/
theorem comboIter_countdown (cur k m : ℤ) (pq : ℚ) (n : ℕ) (hn : n < 180) :
    (comboIter 1 ⟨cur, combo_timeout, k, m, pq⟩ n).current = cur ∧
      (comboIter 1 ⟨cur, combo_timeout, k, m, pq⟩ n).timer = 180 - (n : ℚ) ∧
      (comboIter 1 ⟨cur, combo_timeout, k, m, pq⟩ n).kills = k ∧
      (comboIter 1 ⟨cur, combo_timeout, k, m, pq⟩ n).maxCombo = m := by
  induction n with
  | zero => exact ⟨rfl, by norm_num [comboIter, combo_timeout], rfl, rfl⟩
  | succ j ih =>
    have hj : j < 180 := Nat.lt_of_succ_lt hn
    obtain ⟨ic, it, ik, im⟩ := ih hj
    have hjq : (180 : ℚ) - (j : ℚ) > 0 := by
      have : (j : ℚ) < 180 := by exact_mod_cast hj
      linarith
    have hnext : comboIter 1 ⟨cur, combo_timeout, k, m, pq⟩ (j + 1) =
        comboPulseStep 1 (comboTimerStep 1 (comboIter 1 ⟨cur, combo_timeout, k, m, pq⟩ j)) :=
      rfl
    have ht : update_timer 1 (comboIter 1 ⟨cur, combo_timeout, k, m, pq⟩ j).timer =
        180 - ((j : ℚ) + 1) := by
      rw [it, update_timer, if_pos hjq]
      have hjq1 : (0 : ℚ) ≤ 180 - (j : ℚ) - 1 * 1 := by
        have : (j : ℚ) ≤ 179 := by
          have : (j : ℕ) ≤ 179 := by omega
          exact_mod_cast this
        linarith
      rw [max_eq_right hjq1]
      ring
    have htpos : (0 : ℚ) < 180 - ((j : ℚ) + 1) := by
      have : (j : ℚ) < 179 := by
        have : (j : ℕ) < 179 := by omega
        exact_mod_cast this
      linarith
    have hstep : comboTimerStep 1 (comboIter 1 ⟨cur, combo_timeout, k, m, pq⟩ j) =
        { comboIter 1 ⟨cur, combo_timeout, k, m, pq⟩ j with timer := 180 - ((j : ℚ) + 1) } := by
      rw [comboTimerStep, if_pos (by rw [it]; exact hjq)]
      simp only [ht]
      rw [if_neg (by linarith)]
    obtain ⟨pc, pt, pk, pm⟩ := comboPulseStep_fields 1
      ({ comboIter 1 ⟨cur, combo_timeout, k, m, pq⟩ j with timer := 180 - ((j : ℚ) + 1) })
    rw [hnext, hstep]
    refine ⟨by rw [pc]; exact ic, by rw [pt]; push_cast; ring, by rw [pk]; exact ik,
      by rw [pm]; exact im⟩

/-- Claim C7: with `combo.timer` initialised to 180 ticks at time scale 1.0,
the combo survives the whole countdown unchanged; on the 180th tick with no
kill the counter and kill streak reset to 0 and `combo.max` absorbs the
pre-reset value when it exceeds the old maximum; and any kill (`add_combo`)
restores the timer to 180. -/
theorem C7_combo_decay (cur k m : ℤ) (pq : ℚ) (s : ComboFinisher) :
    ((∀ n, n < 180 → (comboIter 1 ⟨cur, combo_timeout, k, m, pq⟩ n).current = cur) ∧
      (comboIter 1 ⟨cur, combo_timeout, k, m, pq⟩ 180).current = 0 ∧
      (comboIter 1 ⟨cur, combo_timeout, k, m, pq⟩ 180).kills = 0 ∧
      (comboIter 1 ⟨cur, combo_timeout, k, m, pq⟩ 180).maxCombo =
        (if m < cur then cur else m)) ∧
    (add_combo s).combo.timer = combo_timeout := by
  constructor
  · obtain ⟨ic, it, ik, im⟩ := comboIter_countdown cur k m pq 179 (by omega)
    have hnext : comboIter 1 ⟨cur, combo_timeout, k, m, pq⟩ 180 =
        comboPulseStep 1 (comboTimerStep 1 (comboIter 1 ⟨cur, combo_timeout, k, m, pq⟩ 179)) :=
      rfl
    have hpos : (0 : ℚ) < (comboIter 1 ⟨cur, combo_timeout, k, m, pq⟩ 179).timer := by
      rw [it]
      norm_num
    have ht : update_timer 1 (comboIter 1 ⟨cur, combo_timeout, k, m, pq⟩ 179).timer = 0 := by
      rw [it, update_timer]
      norm_num
    have hstep : comboTimerStep 1 (comboIter 1 ⟨cur, combo_timeout, k, m, pq⟩ 179) =
        { comboIter 1 ⟨cur, combo_timeout, k, m, pq⟩ 179 with
            timer := 0
            maxCombo := if (comboIter 1 ⟨cur, combo_timeout, k, m, pq⟩ 179).maxCombo <
                (comboIter 1 ⟨cur, combo_timeout, k, m, pq⟩ 179).current then
              (comboIter 1 ⟨cur, combo_timeout, k, m, pq⟩ 179).current
            else (comboIter 1 ⟨cur, combo_timeout, k, m, pq⟩ 179).maxCombo
            current := 0
            kills := 0 } := by
      rw [comboTimerStep, if_pos hpos]
      simp only [ht]
      rw [if_pos le_rfl]
    refine ⟨fun n hn => (comboIter_countdown cur k m pq n hn).1, ?_, ?_, ?_⟩
    · rw [hnext, hstep, (comboPulseStep_fields 1 _).1]
    · rw [hnext, hstep, (comboPulseStep_fields 1 _).2.2.1]
    · rw [hnext, hstep, (comboPulseStep_fields 1 _).2.2.2]
      simp only [ic, im]
  · unfold add_combo
    split
    · rfl
    · rfl

/-- Witness for C7: a combo of 7 with previous maximum 3 decays after 180
ticks to counter 0 and maximum 7; a kill restores the timer. -/
theorem C7_combo_decay_witness :
    ((∀ n, n < 180 → (comboIter 1 ⟨7, combo_timeout, 2, 3, 0⟩ n).current = 7) ∧
      (comboIter 1 ⟨7, combo_timeout, 2, 3, 0⟩ 180).current = 0 ∧
      (comboIter 1 ⟨7, combo_timeout, 2, 3, 0⟩ 180).kills = 0 ∧
      (comboIter 1 ⟨7, combo_timeout, 2, 3, 0⟩ 180).maxCombo =
        (if (3 : ℤ) < 7 then 7 else 3)) ∧
    (add_combo ⟨⟨7, 50, 2, 3, 0⟩, 40, false⟩).combo.timer = combo_timeout :=
  C7_combo_decay 7 2 3 0 ⟨⟨7, 50, 2, 3, 0⟩, 40, false⟩

/-! ### Finisher-meter decay lemmas (claim C9) -/

theorem update_finisher_meter_combo (timeScale : ℚ) (s : MeterState) :
    (update_finisher_meter timeScale s).comboCurrent = s.comboCurrent := by
  unfold update_finisher_meter
  split <;> rfl

theorem meterIter_combo (timeScale : ℚ) (s : MeterState) (n : ℕ) :
    (meterIter timeScale s n).comboCurrent = s.comboCurrent := by
  induction n with
  | zero => rfl
  | succ j ih => rw [meterIter, update_finisher_meter_combo, ih]

/-- Closed form of the decayed meter while no combo is active. -/
theorem meterIter_meter (timeScale : ℚ) (hts : 0 < timeScale) (s : MeterState)
    (hc : s.comboCurrent = 0) (hm0 : 0 ≤ s.meter) (n : ℕ) :
    (meterIter timeScale s n).meter =
      max 0 (s.meter - (n : ℚ) * (2 / (fps : ℚ) * timeScale)) := by
  have hd : (0 : ℚ) < 2 / (fps : ℚ) * timeScale := by
    have h60 : ((fps : ℤ) : ℚ) = 60 := by norm_num [fps]
    rw [h60]
    positivity
  induction n with
  | zero =>
    simp only [meterIter, Nat.cast_zero, zero_mul, sub_zero]
    rw [max_eq_right hm0]
  | succ j ih =>
    rw [meterIter, update_finisher_meter, meterIter_combo]
    by_cases hmj : 0 < (meterIter timeScale s j).meter
    · rw [if_pos ⟨hc, hmj⟩]
      rw [ih] at hmj
      have hpos : 0 < s.meter - (j : ℚ) * (2 / (fps : ℚ) * timeScale) := by
        rcases lt_max_iff.mp hmj with h | h
        · exact absurd h (lt_irrefl 0)
        · exact h
      simp only [ih, max_eq_right hpos.le]
      congr 1
      push_cast
      ring
    · rw [if_neg (fun hand => hmj hand.2), ih]
      rw [ih] at hmj
      have h0 : max 0 (s.meter - (j : ℚ) * (2 / (fps : ℚ) * timeScale)) = 0 :=
        le_antisymm (not_lt.mp hmj) (le_max_left _ _)
      have hXle : s.meter - (j : ℚ) * (2 / (fps : ℚ) * timeScale) ≤ 0 :=
        max_eq_left_iff.mp h0
      rw [h0, eq_comm, max_eq_left_iff]
      have hexp : s.meter - ((j : ℚ) + 1) * (2 / (fps : ℚ) * timeScale) =
          s.meter - (j : ℚ) * (2 / (fps : ℚ) * timeScale) -
            2 / (fps : ℚ) * timeScale := by ring
      push_cast
      rw [hexp]
      linarith

/-- Once the meter has fully drained (having started positive), the ready
flag has been revoked. -/
theorem meterIter_ready_off (timeScale : ℚ) (s : MeterState)
    (hc : s.comboCurrent = 0) (hm : 0 < s.meter) (n : ℕ)
    (hz : (meterIter timeScale s n).meter = 0) :
    (meterIter timeScale s n).ready = false := by
  induction n with
  | zero => exact absurd hz (by simp only [meterIter]; exact ne_of_gt hm)
  | succ j ih =>
    rw [meterIter, update_finisher_meter, meterIter_combo] at hz ⊢
    by_cases hmj : 0 < (meterIter timeScale s j).meter
    · rw [if_pos ⟨hc, hmj⟩] at hz ⊢
      simp only at hz ⊢
      rw [if_pos (by rw [hz]; norm_num)]
    · rw [if_neg (fun hand => hmj hand.2)] at hz ⊢
      exact ih hz

/-- Claim C9: while the combo counter is 0 and the meter is positive, each
`update_finisher_meter` call decreases the meter by `(2.0 / 60) * time_scale`
clamped below at 0 and revokes the ready flag as soon as the meter is below
100; consequently a filled, unused finisher is eventually fully drained with
its ready flag off. -/
theorem C9_meter_decay (timeScale : ℚ) (s : MeterState) (hts : 0 < timeScale)
    (hc : s.comboCurrent = 0) (hm : 0 < s.meter) :
    ((update_finisher_meter timeScale s).meter =
        max 0 (s.meter - 2 / (fps : ℚ) * timeScale) ∧
      ((update_finisher_meter timeScale s).meter < 100 →
        (update_finisher_meter timeScale s).ready = false)) ∧
    ∃ n, (meterIter timeScale s n).meter = 0 ∧
      (meterIter timeScale s n).ready = false := by
  constructor
  · rw [update_finisher_meter, if_pos ⟨hc, hm⟩]
    exact ⟨rfl, fun hlt => by simp only at hlt ⊢; rw [if_pos hlt]⟩
  · have hd : (0 : ℚ) < 2 / (fps : ℚ) * timeScale := by
      have : ((fps : ℤ) : ℚ) = 60 := by norm_num [fps]
      rw [this]
      positivity
    obtain ⟨n, hn⟩ := exists_nat_ge (s.meter / (2 / (fps : ℚ) * timeScale))
    have hdrain : s.meter - (n : ℚ) * (2 / (fps : ℚ) * timeScale) ≤ 0 := by
      have := (div_le_iff₀ hd).mp hn
      linarith
    have hz : (meterIter timeScale s n).meter = 0 := by
      rw [meterIter_meter timeScale hts s hc hm.le n, max_eq_left hdrain]
    exact ⟨n, hz, meterIter_ready_off timeScale s hc hm n hz⟩

/-- Witness for C9: time scale 1, no combo, meter at 50. -/
theorem C9_meter_decay_witness :
    ((0 : ℚ) < 1 ∧ (MeterState.mk 0 50 true).comboCurrent = 0 ∧
      (0 : ℚ) < (MeterState.mk 0 50 true).meter) ∧
    (((update_finisher_meter 1 (MeterState.mk 0 50 true)).meter =
        max 0 ((MeterState.mk 0 50 true).meter - 2 / (fps : ℚ) * 1) ∧
      ((update_finisher_meter 1 (MeterState.mk 0 50 true)).meter < 100 →
        (update_finisher_meter 1 (MeterState.mk 0 50 true)).ready = false)) ∧
    ∃ n, (meterIter 1 (MeterState.mk 0 50 true) n).meter = 0 ∧
      (meterIter 1 (MeterState.mk 0 50 true) n).ready = false) :=
  ⟨⟨by norm_num, rfl, by norm_num⟩,
    C9_meter_decay 1 (MeterState.mk 0 50 true) (by norm_num) rfl (by norm_num)⟩

/-! ## Asteroids (`create_asteroid`, lines 2041–2125; `handle_asteroid_hit`,
lines 3299–3386)

`create_asteroid` is modelled for call sites that supply both coordinates —
the split in `handle_asteroid_hit` always does — so the random-edge-spawn
branch for missing coordinates is not needed.  The random draws the function
makes are explicit inputs, and `get_sin_cos` is an abstract trig
collaborator returning a `(sin, cos)` pair. -/

/-- `Cfg.asteroid_base_speed = 2.0`. -/
def asteroid_base_speed : ℚ := 2

/-- `Cfg.asteroid_speed_multiplier = 1.5`. -/
def asteroid_speed_multiplier : ℚ := 3 / 2

/-- `Cfg.asteroid_speed_size_adjustment = 0.2`. -/
def asteroid_speed_size_adjustment : ℚ := 1 / 5

/-- `Cfg.asteroid_hit_flash_duration = 8`. -/
def asteroid_hit_flash_duration : ℤ := 8

/-- `Cfg.boss_health = 50`. -/
def boss_health : ℤ := 50

/-- `Cfg.boss_speed_multiplier = 0.5`. -/
def boss_speed_multiplier : ℚ := 1 / 2

/-- `Cfg.boss_size_multiplier = 3`. -/
def boss_size_multiplier : ℚ := 3

/-- `Cfg.boss_rotation_multiplier = 0.3`. -/
def boss_rotation_multiplier : ℚ := 3 / 10

/-- The `Asteroid` dataclass (interpolation bookkeeping omitted). -/
structure Asteroid where
  x : ℚ
  y : ℚ
  vx : ℚ
  vy : ℚ
  size : ℤ
  angle : ℚ
  spin : ℚ
  shape : List ℤ
  radius : ℚ
  isBoss : Bool
  hasCrystals : Bool
  health : ℤ
  maxHealth : ℤ
  hitFlash : ℤ
deriving DecidableEq, Repr

/-- The random draws `create_asteroid` makes for one asteroid: the movement
angle (`random.uniform(0, 360)`), the visual angle, the raw spin
(`random.uniform(-3, 3)`) and the shape-variance offsets. -/
structure AsteroidDraws where
  moveAngle : ℚ
  visAngle : ℚ
  spin : ℚ
  shape : List ℤ
deriving DecidableEq, Repr

/-- `create_asteroid` with both coordinates supplied: clamp the size to
`[asteroid_min_size, asteroid_max_size]`, derive speed and radius from size
and the boss flag, and fill the record from the random draws. -/
def create_asteroid (trig : ℚ → ℚ × ℚ) (scale : ℚ) (x y : ℚ) (size : ℤ)
    (isBoss hasCrystals : Bool) (d : AsteroidDraws) : Asteroid :=
  let sz := max asteroid_min_size (min asteroid_max_size size)
  let speedMult := asteroid_speed_multiplier - (sz : ℚ) * asteroid_speed_size_adjustment
  let speed0 := asteroid_base_speed * scale * speedMult
  let speed := if isBoss then speed0 * boss_speed_multiplier else speed0
  let sc := trig d.moveAngle
  let radius0 := (sz : ℚ) * 10 * scale
  let radius := if isBoss then radius0 * boss_size_multiplier else radius0
  { x := x
    y := y
    vx := sc.2 * speed
    vy := sc.1 * speed
    size := sz
    angle := d.visAngle
    spin := d.spin * (if isBoss then boss_rotation_multiplier else 1)
    shape := d.shape
    radius := radius
    isBoss := isBoss
    hasCrystals := hasCrystals
    health := if isBoss then boss_health else 1
    maxHealth := if isBoss then boss_health else 1
    hitFlash := 0 }

/-- `handle_asteroid_hit`, restricted to the hit asteroid and the deferred
removal/addition bookkeeping (`asteroids_to_remove`, `asteroids_to_add`).
`damage` is `int(get_damage_multiplier())`; `draws i` is the draw record
consumed by the `i`-th `create_asteroid` call of the split loop.  The
score/combo/powerup/enemy-spawn and explosion side effects touch state
outside this slice and are not modelled. -/
def handle_asteroid_hit (trig : ℚ → ℚ × ℚ) (scale : ℚ) (damage : ℤ)
    (a : Asteroid) (index : ℕ) (toRemove : Finset ℕ) (toAdd : List Asteroid)
    (draws : ℕ → AsteroidDraws) : Asteroid × Finset ℕ × List Asteroid :=
  if a.isBoss then
    let a1 := { a with
        health := a.health - max 1 damage
        hitFlash := asteroid_hit_flash_duration }
    if a1.health ≤ 0 then (a1, insert index toRemove, toAdd)
    else (a1, toRemove, toAdd)
  else
    let a1 := if 1 < a.size then { a with hitFlash := asteroid_hit_flash_duration }
      else a
    let toRemove1 := if 1 < a.size then toRemove else insert index toRemove
    if 1 < a.size then
      let children := (List.range asteroid_split_count).map
        (fun i => create_asteroid trig scale a1.x a1.y (a1.size - 1) false false
          (draws i))
      (a1, insert index toRemove1, toAdd ++ children)
    else (a1, toRemove1, toAdd)

/-! ### Split-law lemmas (claim C5) -/

theorem create_asteroid_basic (trig : ℚ → ℚ × ℚ) (scale : ℚ) (x y : ℚ)
    (size : ℤ) (isBoss hasCrystals : Bool) (d : AsteroidDraws) :
    (create_asteroid trig scale x y size isBoss hasCrystals d).x = x ∧
      (create_asteroid trig scale x y size isBoss hasCrystals d).y = y ∧
      (create_asteroid trig scale x y size isBoss hasCrystals d).size =
        max asteroid_min_size (min asteroid_max_size size) :=
  ⟨rfl, rfl, rfl⟩

theorem size_clamp_id (z : ℤ) (h1 : 1 ≤ z) (h3 : z ≤ 3) :
    max asteroid_min_size (min asteroid_max_size z) = z := by
  unfold asteroid_min_size asteroid_max_size
  omega

/-- Claim C5: a bullet hit on a non-boss asteroid of size `s > 1` puts
exactly two children — each created by its own `create_asteroid` call with
its own random draws — of size `s − 1` at the destroyed asteroid's location
into the deferred-add list and marks the original for removal; a size-1
non-boss asteroid is marked for removal with no children added. -/
theorem C5_split_law (trig : ℚ → ℚ × ℚ) (scale : ℚ) (damage : ℤ)
    (a : Asteroid) (index : ℕ) (toRemove : Finset ℕ) (toAdd : List Asteroid)
    (draws : ℕ → AsteroidDraws) (hb : a.isBoss = false)
    (h1 : 1 ≤ a.size) (h3 : a.size ≤ 3) :
    (1 < a.size →
      (handle_asteroid_hit trig scale damage a index toRemove toAdd draws).2.2 =
        toAdd ++
          [create_asteroid trig scale a.x a.y (a.size - 1) false false (draws 0),
           create_asteroid trig scale a.x a.y (a.size - 1) false false (draws 1)] ∧
      (∀ c ∈ (handle_asteroid_hit trig scale damage a index toRemove toAdd
          draws).2.2.drop toAdd.length,
        c.x = a.x ∧ c.y = a.y ∧ c.size = a.size - 1) ∧
      index ∈ (handle_asteroid_hit trig scale damage a index toRemove toAdd
        draws).2.1) ∧
    (a.size = 1 →
      (handle_asteroid_hit trig scale damage a index toRemove toAdd draws).2.2 =
        toAdd ∧
      index ∈ (handle_asteroid_hit trig scale damage a index toRemove toAdd
        draws).2.1) := by
  constructor
  · intro hgt
    have hres : (handle_asteroid_hit trig scale damage a index toRemove toAdd
        draws).2.2 =
        toAdd ++
          [create_asteroid trig scale a.x a.y (a.size - 1) false false (draws 0),
           create_asteroid trig scale a.x a.y (a.size - 1) false false (draws 1)] := by
      unfold handle_asteroid_hit
      rw [hb]
      simp only [Bool.false_eq_true, if_false, if_pos hgt]
      have hrange : List.range asteroid_split_count = [0, 1] := rfl
      rw [hrange]
      rfl
    have hmem : index ∈ (handle_asteroid_hit trig scale damage a index toRemove
        toAdd draws).2.1 := by
      unfold handle_asteroid_hit
      rw [hb]
      simp only [Bool.false_eq_true, if_false, if_pos hgt]
      exact Finset.mem_insert_self index _
    refine ⟨hres, ?_, hmem⟩
    intro c hc
    rw [hres, List.drop_append_of_le_length le_rfl] at hc
    simp only [List.drop_length, List.nil_append, List.mem_cons,
      List.not_mem_nil, or_false] at hc
    have hsz : max asteroid_min_size (min asteroid_max_size (a.size - 1)) =
        a.size - 1 := size_clamp_id _ (by omega) (by omega)
    rcases hc with rfl | rfl
    · exact ⟨rfl, rfl, by rw [(create_asteroid_basic trig scale a.x a.y
        (a.size - 1) false false (draws 0)).2.2, hsz]⟩
    · exact ⟨rfl, rfl, by rw [(create_asteroid_basic trig scale a.x a.y
        (a.size - 1) false false (draws 1)).2.2, hsz]⟩
  · intro heq
    have hnot : ¬ 1 < a.size := by omega
    constructor
    · unfold handle_asteroid_hit
      rw [hb]
      simp only [Bool.false_eq_true, if_false, if_neg hnot]
    · unfold handle_asteroid_hit
      rw [hb]
      simp only [Bool.false_eq_true, if_false, if_neg hnot]
      exact Finset.mem_insert_self index _

/-- Witness for C5: a size-3 non-boss asteroid at `(100, 200)` splits into
two size-2 children there; a size-1 non-boss asteroid at the same spot is
removed without children. -/
theorem C5_split_law_witness :
    (Asteroid.mk 100 200 1 0 3 0 0 [] 30 false false 1 1 0).isBoss = false ∧
    (1 : ℤ) ≤ (Asteroid.mk 100 200 1 0 3 0 0 [] 30 false false 1 1 0).size ∧
    (Asteroid.mk 100 200 1 0 3 0 0 [] 30 false false 1 1 0).size ≤ 3 ∧
    (1 < (Asteroid.mk 100 200 1 0 3 0 0 [] 30 false false 1 1 0).size →
      (handle_asteroid_hit (fun _ => (0, 1)) 1 1
          (Asteroid.mk 100 200 1 0 3 0 0 [] 30 false false 1 1 0) 0 ∅ []
          (fun _ => AsteroidDraws.mk 0 0 0 [])).2.2 =
        [] ++
          [create_asteroid (fun _ => (0, 1)) 1 100 200 2 false false
            (AsteroidDraws.mk 0 0 0 []),
           create_asteroid (fun _ => (0, 1)) 1 100 200 2 false false
            (AsteroidDraws.mk 0 0 0 [])]) :=
  ⟨rfl, by norm_num, by norm_num, fun hgt =>
    ((C5_split_law (fun _ => (0, 1)) 1 1
        (Asteroid.mk 100 200 1 0 3 0 0 [] 30 false false 1 1 0) 0 ∅ []
        (fun _ => AsteroidDraws.mk 0 0 0 []) rfl (by norm_num) (by norm_num)).1
      hgt).1⟩

/-! ## Ship-collision pipeline (`handle_ship_collisions_if_vulnerable`,
lines 3201–3210; `handle_ship_asteroid_collisions`, 3213–3231;
`handle_ship_enemy_collisions`, 3234–3262; `handle_ship_bullet_collisions`,
3265–3296; `handle_ship_damage`, 3423–3462)

Each category handler iterates over the `(entity, radius)` pairs its
spatial-grid query returned for the matching entity kind; those lists are
inputs here.  The damage slice carries the shield timer and the life count;
the explosion/flash/`reset_ship` effects (position recenter, invulnerability
window) live outside it. -/

/-- The slice of state `handle_ship_damage` reads and writes. -/
structure DamageState where
  shieldActive : ℚ
  lives : ℤ
  gameOver : Bool
deriving DecidableEq, Repr

/-- `handle_ship_damage`: an active shield is consumed and the handler
returns `false`; otherwise a life is deducted and it returns `true`,
flagging game over at zero lives (else `reset_ship` runs a respawn). -/
def handle_ship_damage (s : DamageState) : DamageState × Bool :=
  if 0 < s.shieldActive then ({ s with shieldActive := 0 }, false)
  else
    let s1 := { s with lives := s.lives - 1 }
    if s1.lives ≤ 0 then ({ s1 with gameOver := true }, true)
    else (s1, true)

/-- `handle_ship_asteroid_collisions`: scan the nearby asteroids (with the
collision margin added to their radius); on a hit invoke the damage handler
and `break` only when it returns `true`. -/
def handle_ship_asteroid_collisions (ship : Pos) (shipR margin : ℚ)
    (s : DamageState) : List (Pos × ℚ) → DamageState
  | [] => s
  | (p, r) :: rest =>
      if check_collision ship p shipR (r + margin) then
        match handle_ship_damage s with
        | (s1, true) => s1
        | (s1, false) => handle_ship_asteroid_collisions ship shipR margin s1 rest
      else handle_ship_asteroid_collisions ship shipR margin s rest

/-- `handle_ship_enemy_collisions` (enemy removal and explosion omitted):
same scan shape, no margin; `break` only on a `true` damage report. -/
def handle_ship_enemy_collisions (ship : Pos) (shipR : ℚ)
    (s : DamageState) : List (Pos × ℚ) → DamageState
  | [] => s
  | (p, r) :: rest =>
      if check_collision ship p shipR r then
        match handle_ship_damage s with
        | (s1, true) => s1
        | (s1, false) => handle_ship_enemy_collisions ship shipR s1 rest
      else handle_ship_enemy_collisions ship shipR s rest

/-- `handle_ship_bullet_collisions` (bullet removal omitted): the enemy
bullet's radius is doubled in the check; `break` only on `true`. -/
def handle_ship_bullet_collisions (ship : Pos) (shipR : ℚ)
    (s : DamageState) : List (Pos × ℚ) → DamageState
  | [] => s
  | (p, r) :: rest =>
      if check_collision ship p shipR (r * 2) then
        match handle_ship_damage s with
        | (s1, true) => s1
        | (s1, false) => handle_ship_bullet_collisions ship shipR s1 rest
      else handle_ship_bullet_collisions ship shipR s rest

/-- `handle_ship_collisions_if_vulnerable`: when vulnerable, run the three
category scans in order — each is invoked unconditionally, whatever the
earlier scans did. -/
def handle_ship_collisions_if_vulnerable (vulnerable : Bool) (ship : Pos)
    (shipR margin : ℚ) (s : DamageState)
    (asteroids enemies bullets : List (Pos × ℚ)) : DamageState :=
  if vulnerable then
    handle_ship_bullet_collisions ship shipR
      (handle_ship_enemy_collisions ship shipR
        (handle_ship_asteroid_collisions ship shipR margin s asteroids) enemies)
      bullets
  else s

/-! ### Claim C3

The claim says the pipeline stops checking the remaining categories once a
hit is ship-state-changing, *including a shield absorption*.  In the code a
shield absorption makes `handle_ship_damage` return `False`, the scan
`break`s only on `True`, and `handle_ship_collisions_if_vulnerable` calls
the next category handlers unconditionally — so a tick can consume the
shield and then also cost a life. -/

/-- Counterexample to C3 as stated: a shielded ship (3 lives) overlapping
two asteroids in the same tick loses the shield to the first hit — a
ship-state-changing hit after which the claim says checking stops — and
then also loses a life to the second hit: the scan ends with
`shieldActive = 0` and `lives = 2`.  (`handle_ship_damage` reports a shield
absorption as `false`, so it does not trigger the scan's `break`.) -/
theorem C3_counterexample :
    handle_ship_asteroid_collisions ⟨0, 0⟩ 10 12 ⟨1, 3, false⟩
        [(⟨5, 0⟩, 8), (⟨0, 5⟩, 8)] = ⟨0, 2, false⟩ ∧
      (handle_ship_damage ⟨1, 3, false⟩).2 = false := by
  constructor
  · simp [handle_ship_asteroid_collisions, handle_ship_damage, check_collision,
      distance_squared]
    norm_num
  · rfl

/-- A category scan loses at most one life: it leaves the life count
unchanged or deducts exactly one (the `break` fires on the first `true`
damage report). -/
theorem asteroid_scan_lives (ship : Pos) (shipR margin : ℚ) :
    ∀ (l : List (Pos × ℚ)) (s : DamageState),
      (handle_ship_asteroid_collisions ship shipR margin s l).lives = s.lives ∨
        (handle_ship_asteroid_collisions ship shipR margin s l).lives =
          s.lives - 1 := by
  intro l
  induction l with
  | nil => intro s; exact Or.inl rfl
  | cons hd tl ih =>
    intro s
    obtain ⟨p, r⟩ := hd
    rw [handle_ship_asteroid_collisions]
    by_cases hcol : check_collision ship p shipR (r + margin)
    · rw [if_pos hcol]
      unfold handle_ship_damage
      by_cases hsh : 0 < s.shieldActive
      · rw [if_pos hsh]
        simpa using ih { s with shieldActive := 0 }
      · rw [if_neg hsh]
        by_cases hl : s.lives - 1 ≤ 0
        · simp [hl]
        · simp [hl]
    · rw [if_neg hcol]
      exact ih s

theorem enemy_scan_lives (ship : Pos) (shipR : ℚ) :
    ∀ (l : List (Pos × ℚ)) (s : DamageState),
      (handle_ship_enemy_collisions ship shipR s l).lives = s.lives ∨
        (handle_ship_enemy_collisions ship shipR s l).lives = s.lives - 1 := by
  intro l
  induction l with
  | nil => intro s; exact Or.inl rfl
  | cons hd tl ih =>
    intro s
    obtain ⟨p, r⟩ := hd
    rw [handle_ship_enemy_collisions]
    by_cases hcol : check_collision ship p shipR r
    · rw [if_pos hcol]
      unfold handle_ship_damage
      by_cases hsh : 0 < s.shieldActive
      · rw [if_pos hsh]
        simpa using ih { s with shieldActive := 0 }
      · rw [if_neg hsh]
        by_cases hl : s.lives - 1 ≤ 0
        · simp [hl]
        · simp [hl]
    · rw [if_neg hcol]
      exact ih s

theorem bullet_scan_lives (ship : Pos) (shipR : ℚ) :
    ∀ (l : List (Pos × ℚ)) (s : DamageState),
      (handle_ship_bullet_collisions ship shipR s l).lives = s.lives ∨
        (handle_ship_bullet_collisions ship shipR s l).lives = s.lives - 1 := by
  intro l
  induction l with
  | nil => intro s; exact Or.inl rfl
  | cons hd tl ih =>
    intro s
    obtain ⟨p, r⟩ := hd
    rw [handle_ship_bullet_collisions]
    by_cases hcol : check_collision ship p shipR (r * 2)
    · rw [if_pos hcol]
      unfold handle_ship_damage
      by_cases hsh : 0 < s.shieldActive
      · rw [if_pos hsh]
        simpa using ih { s with shieldActive := 0 }
      · rw [if_neg hsh]
        by_cases hl : s.lives - 1 ≤ 0
        · simp [hl]
        · simp [hl]
    · rw [if_neg hcol]
      exact ih s

/-- Claim C3, amended: a category scan stops only when the damage handler
reports a life loss (returns `true`); a shield absorption returns `false`
and the scan continues with the shield consumed, so the same tick can also
cost a life; the pipeline always proceeds through all three categories when
the ship is vulnerable; and within any single category at most one life is
lost per tick (the life count drops by 0 or exactly 1). -/
theorem C3_amended_stop_only_on_life_loss (vulnerable : Bool) (ship p : Pos)
    (shipR margin r : ℚ) (s : DamageState)
    (asteroids enemies bullets rest : List (Pos × ℚ)) :
    (vulnerable = true →
      handle_ship_collisions_if_vulnerable vulnerable ship shipR margin s
          asteroids enemies bullets =
        handle_ship_bullet_collisions ship shipR
          (handle_ship_enemy_collisions ship shipR
            (handle_ship_asteroid_collisions ship shipR margin s asteroids)
            enemies) bullets) ∧
    (0 < s.shieldActive → check_collision ship p shipR (r + margin) = true →
      handle_ship_asteroid_collisions ship shipR margin s ((p, r) :: rest) =
        handle_ship_asteroid_collisions ship shipR margin
          { s with shieldActive := 0 } rest) ∧
    ((handle_ship_asteroid_collisions ship shipR margin s asteroids).lives =
        s.lives ∨
      (handle_ship_asteroid_collisions ship shipR margin s asteroids).lives =
        s.lives - 1) ∧
    ((handle_ship_enemy_collisions ship shipR s enemies).lives = s.lives ∨
      (handle_ship_enemy_collisions ship shipR s enemies).lives = s.lives - 1) ∧
    ((handle_ship_bullet_collisions ship shipR s bullets).lives = s.lives ∨
      (handle_ship_bullet_collisions ship shipR s bullets).lives = s.lives - 1) := by
  refine ⟨fun hv => ?_, fun hsh hcol => ?_, asteroid_scan_lives ship shipR margin
    asteroids s, enemy_scan_lives ship shipR enemies s,
    bullet_scan_lives ship shipR bullets s⟩
  · rw [handle_ship_collisions_if_vulnerable, if_pos hv]
  · rw [handle_ship_asteroid_collisions, if_pos hcol]
    unfold handle_ship_damage
    rw [if_pos hsh]

/-- Witness for C3 (amended): vulnerable ship at the origin, shield up,
two overlapping asteroids, one enemy, one enemy bullet. -/
theorem C3_amended_stop_only_on_life_loss_witness :
    (true = true ∧ 0 < (DamageState.mk 1 3 false).shieldActive ∧
      check_collision ⟨0, 0⟩ ⟨5, 0⟩ 10 (8 + 12) = true) ∧
    ((true = true →
      handle_ship_collisions_if_vulnerable true ⟨0, 0⟩ 10 12 ⟨1, 3, false⟩
          [(⟨5, 0⟩, 8), (⟨0, 5⟩, 8)] [(⟨3, 3⟩, 7)] [(⟨1, 1⟩, 2)] =
        handle_ship_bullet_collisions ⟨0, 0⟩ 10
          (handle_ship_enemy_collisions ⟨0, 0⟩ 10
            (handle_ship_asteroid_collisions ⟨0, 0⟩ 10 12 ⟨1, 3, false⟩
              [(⟨5, 0⟩, 8), (⟨0, 5⟩, 8)])
            [(⟨3, 3⟩, 7)]) [(⟨1, 1⟩, 2)]) ∧
    (0 < (DamageState.mk 1 3 false).shieldActive →
      check_collision ⟨0, 0⟩ ⟨5, 0⟩ 10 (8 + 12) = true →
      handle_ship_asteroid_collisions ⟨0, 0⟩ 10 12 ⟨1, 3, false⟩
          [(⟨5, 0⟩, 8), (⟨0, 5⟩, 8)] =
        handle_ship_asteroid_collisions ⟨0, 0⟩ 10 12 ⟨0, 3, false⟩
          [(⟨0, 5⟩, 8)]) ∧
    ((handle_ship_asteroid_collisions ⟨0, 0⟩ 10 12 ⟨1, 3, false⟩
          [(⟨5, 0⟩, 8), (⟨0, 5⟩, 8)]).lives = (3 : ℤ) ∨
      (handle_ship_asteroid_collisions ⟨0, 0⟩ 10 12 ⟨1, 3, false⟩
          [(⟨5, 0⟩, 8), (⟨0, 5⟩, 8)]).lives = (3 : ℤ) - 1) ∧
    ((handle_ship_enemy_collisions ⟨0, 0⟩ 10 ⟨1, 3, false⟩
          [(⟨3, 3⟩, 7)]).lives = (3 : ℤ) ∨
      (handle_ship_enemy_collisions ⟨0, 0⟩ 10 ⟨1, 3, false⟩
          [(⟨3, 3⟩, 7)]).lives = (3 : ℤ) - 1) ∧
    ((handle_ship_bullet_collisions ⟨0, 0⟩ 10 ⟨1, 3, false⟩
          [(⟨1, 1⟩, 2)]).lives = (3 : ℤ) ∨
      (handle_ship_bullet_collisions ⟨0, 0⟩ 10 ⟨1, 3, false⟩
          [(⟨1, 1⟩, 2)]).lives = (3 : ℤ) - 1)) :=
  ⟨⟨rfl, by norm_num, by norm_num [check_collision, distance_squared]⟩,
    C3_amended_stop_only_on_life_loss true ⟨0, 0⟩ ⟨5, 0⟩ 10 12 8 ⟨1, 3, false⟩
      [(⟨5, 0⟩, 8), (⟨0, 5⟩, 8)] [(⟨3, 3⟩, 7)] [(⟨1, 1⟩, 2)] [(⟨0, 5⟩, 8)]⟩



/-! ## Particle pool (`ParticlePool`, lines 1234–1288)

The Python list `self.pool` of fixed length is modelled as a total function
on slot indices (the invariant keeps every tracked index below `size`);
`active_indices` is a list, `inactive_indices` a set, exactly as in the
source.  `set.pop()` removes an *arbitrary* element of the free set; it is
modelled as removing the minimum, a choice none of the proved properties
depend on.  The float power `0.95 ** time_scale` is the abstract friction
collaborator `fric`. -/

/-- The pooled `Particle` record (color and type tag omitted). -/
structure PoolParticle where
  active : Bool
  x : ℚ
  y : ℚ
  vx : ℚ
  vy : ℚ
  life : ℚ
deriving DecidableEq, Repr

/-- `Particle()` with its default field values. -/
def PoolParticle.init : PoolParticle := ⟨false, 0, 0, 0, 0, 0⟩

/-- The `ParticlePool` object state. -/
structure ParticlePool where
  size : ℕ
  pool : ℕ → PoolParticle
  activeIndices : List ℕ
  inactiveIndices : Finset ℕ

/-- `ParticlePool.__init__(size)`: all slots inactive and free. -/
def initPool (n : ℕ) : ParticlePool :=
  { size := n
    pool := fun _ => PoolParticle.init
    activeIndices := []
    inactiveIndices := Finset.range n }

/-- `ParticlePool.get`: pop a free index (modelled as the minimum of the
free set), mark that slot active, append the index to the active list and
return the particle; return `none` when the pool is exhausted. -/
def poolGet (p : ParticlePool) : Option PoolParticle × ParticlePool :=
  if h : p.inactiveIndices.Nonempty then
    let idx := p.inactiveIndices.min' h
    let prt := { p.pool idx with active := true }
    (some prt,
      { p with
        pool := Function.update p.pool idx prt
        activeIndices := p.activeIndices ++ [idx]
        inactiveIndices := p.inactiveIndices.erase idx })
  else (none, p)

/-- The per-particle body of `ParticlePool.update`: integrate position,
decay life by the time scale, apply the friction factor `0.95 ** ts` to the
velocity. -/
def particleStep (fric : ℚ → ℚ) (ts : ℚ) (q : PoolParticle) : PoolParticle :=
  { q with
    x := q.x + q.vx * ts
    y := q.y + q.vy * ts
    life := q.life - ts
    vx := q.vx * fric ts
    vy := q.vy * fric ts }

/-- The loop of `ParticlePool.update`: walk the active list, stepping each
particle; survivors (positive remaining life) are appended to `new_active`,
expired slots are deactivated and returned to the free set. -/
def poolUpdateGo (fric : ℚ → ℚ) (ts : ℚ) :
    List ℕ → (ℕ → PoolParticle) → List ℕ → Finset ℕ →
      (ℕ → PoolParticle) × List ℕ × Finset ℕ
  | [], pool, newActive, inactive => (pool, newActive, inactive)
  | idx :: rest, pool, newActive, inactive =>
      let q := particleStep fric ts (pool idx)
      if 0 < q.life then
        poolUpdateGo fric ts rest (Function.update pool idx q)
          (newActive ++ [idx]) inactive
      else
        poolUpdateGo fric ts rest
          (Function.update pool idx { q with active := false })
          newActive (insert idx inactive)

/-- `ParticlePool.update(time_scale)`. -/
def poolUpdate (fric : ℚ → ℚ) (ts : ℚ) (p : ParticlePool) : ParticlePool :=
  let r := poolUpdateGo fric ts p.activeIndices p.pool [] p.inactiveIndices
  { p with pool := r.1, activeIndices := r.2.1, inactiveIndices := r.2.2 }

/-- The loop of `ParticlePool.clear`: deactivate every active slot. -/
def clearPool : List ℕ → (ℕ → PoolParticle) → (ℕ → PoolParticle)
  | [], pool => pool
  | idx :: rest, pool =>
      clearPool rest (Function.update pool idx { pool idx with active := false })

/-- `ParticlePool.clear()`: force-free all active slots. -/
def poolClear (p : ParticlePool) : ParticlePool :=
  { p with
    pool := clearPool p.activeIndices p.pool
    inactiveIndices := p.inactiveIndices ∪ p.activeIndices.toFinset
    activeIndices := [] }

/-- The pool invariant: the active list is duplicate-free and disjoint from
the free set, all tracked indices are in range, active and inactive counts
sum to the fixed capacity, and the per-slot `active` flags agree with the
tracking structures. -/
structure PoolInv (p : ParticlePool) : Prop where
  nodup : p.activeIndices.Nodup
  disj : ∀ i ∈ p.activeIndices, i ∉ p.inactiveIndices
  activeLt : ∀ i ∈ p.activeIndices, i < p.size
  inactiveLt : ∀ i ∈ p.inactiveIndices, i < p.size
  count : p.activeIndices.length + p.inactiveIndices.card = p.size
  activeFlag : ∀ i ∈ p.activeIndices, (p.pool i).active = true
  inactiveFlag : ∀ i ∈ p.inactiveIndices, (p.pool i).active = false

theorem initPool_inv (n : ℕ) : PoolInv (initPool n) := by
  refine ⟨List.nodup_nil, ?_, ?_, ?_, ?_, ?_, ?_⟩ <;>
    simp [initPool, PoolParticle.init]

theorem poolGet_inv (p : ParticlePool) (hp : PoolInv p) : PoolInv (poolGet p).2 := by
  unfold poolGet
  split
  · rename_i h
    set idx := p.inactiveIndices.min' h with hidx
    have hmem : idx ∈ p.inactiveIndices := p.inactiveIndices.min'_mem h
    have hnact : idx ∉ p.activeIndices := fun ha => hp.disj idx ha hmem
    refine ⟨?_, ?_, ?_, ?_, ?_, ?_, ?_⟩
    · simp only
      rw [List.nodup_append]
      exact ⟨hp.nodup, List.nodup_singleton idx,
        fun a ha hb => by simp only [List.mem_singleton] at hb; exact hnact (hb ▸ ha)⟩
    · intro i hi
      simp only [List.mem_append, List.mem_singleton] at hi
      simp only [Finset.mem_erase, not_and]
      rcases hi with hi | rfl
      · intro _
        exact hp.disj i hi
      · intro hne
        exact absurd rfl hne
    · intro i hi
      simp only [List.mem_append, List.mem_singleton] at hi
      rcases hi with hi | rfl
      · exact hp.activeLt i hi
      · exact hp.inactiveLt idx hmem
    · intro i hi
      simp only [Finset.mem_erase] at hi
      exact hp.inactiveLt i hi.2
    · simp only [List.length_append, List.length_singleton,
        Finset.card_erase_of_mem hmem]
      have hpos : 0 < p.inactiveIndices.card := Finset.card_pos.mpr h
      have := hp.count
      omega
    · intro i hi
      simp only [List.mem_append, List.mem_singleton] at hi
      rcases hi with hi | rfl
      · have hne : i ≠ idx := fun he => hnact (he ▸ hi)
        simp only [Function.update_noteq hne]
        exact hp.activeFlag i hi
      · simp only [Function.update_same]
    · intro i hi
      simp only [Finset.mem_erase] at hi
      simp only [Function.update_noteq hi.1]
      exact hp.inactiveFlag i hi.2
  · exact hp

theorem clearPool_apply :
    ∀ (l : List ℕ) (pool : ℕ → PoolParticle) (i : ℕ),
      clearPool l pool i =
        if i ∈ l then { pool i with active := false } else pool i := by
  intro l
  induction l with
  | nil => intro pool i; simp [clearPool]
  | cons idx rest ih =>
    intro pool i
    rw [clearPool, ih]
    by_cases hmem : i ∈ rest
    · rw [if_pos hmem, if_pos (List.mem_cons_of_mem idx hmem)]
      by_cases he : i = idx
      · subst he
        rw [Function.update_same]
      · rw [Function.update_noteq he]
    · rw [if_neg hmem]
      by_cases he : i = idx
      · subst he
        rw [if_pos (List.mem_cons_self i rest), Function.update_same]
      · rw [Function.update_noteq he,
          if_neg (by simp [List.mem_cons, he, hmem])]

theorem poolClear_inv (p : ParticlePool) (hp : PoolInv p) :
    PoolInv (poolClear p) := by
  refine ⟨by simp [poolClear], by simp [poolClear], by simp [poolClear], ?_, ?_,
    by simp [poolClear], ?_⟩
  · intro i hi
    simp only [poolClear, Finset.mem_union, List.mem_toFinset] at hi
    rcases hi with hi | hi
    · exact hp.inactiveLt i hi
    · exact hp.activeLt i hi
  · simp only [poolClear, List.length_nil]
    rw [Finset.card_union_of_disjoint]
    · rw [List.toFinset_card_of_nodup hp.nodup]
      have := hp.count
      omega
    · rw [Finset.disjoint_left]
      intro a ha hb
      rw [List.mem_toFinset] at hb
      exact hp.disj a hb ha
  · intro i hi
    simp only [poolClear, Finset.mem_union, List.mem_toFinset] at hi
    simp only [poolClear, clearPool_apply]
    by_cases hmem : i ∈ p.activeIndices
    · rw [if_pos hmem]
    · rw [if_neg hmem]
      rcases hi with hi | hi
      · exact hp.inactiveFlag i hi
      · exact absurd hi hmem

/-- Invariant preservation through the update loop, generalised over the
accumulated `new_active` list and the current free set. -/
theorem poolUpdateGo_inv (fric : ℚ → ℚ) (ts : ℚ) :
    ∀ (l : List ℕ) (pool : ℕ → PoolParticle) (na : List ℕ) (ia : Finset ℕ),
      (na ++ l).Nodup →
      (∀ i ∈ na ++ l, i ∉ ia) →
      (∀ i ∈ na ++ l, (pool i).active = true) →
      (∀ i ∈ ia, (pool i).active = false) →
      (poolUpdateGo fric ts l pool na ia).2.1.Nodup ∧
        (∀ i ∈ (poolUpdateGo fric ts l pool na ia).2.1,
          i ∉ (poolUpdateGo fric ts l pool na ia).2.2) ∧
        (poolUpdateGo fric ts l pool na ia).2.1.length +
            (poolUpdateGo fric ts l pool na ia).2.2.card =
          na.length + l.length + ia.card ∧
        (∀ i ∈ (poolUpdateGo fric ts l pool na ia).2.1,
          ((poolUpdateGo fric ts l pool na ia).1 i).active = true) ∧
        (∀ i ∈ (poolUpdateGo fric ts l pool na ia).2.2,
          ((poolUpdateGo fric ts l pool na ia).1 i).active = false) ∧
        (∀ i ∈ (poolUpdateGo fric ts l pool na ia).2.1, i ∈ na ++ l) ∧
        (∀ i ∈ (poolUpdateGo fric ts l pool na ia).2.2, i ∈ ia ∨ i ∈ l) := by
  intro l
  induction l with
  | nil =>
    intro pool na ia hnd hdisj hact hina
    simp only [poolUpdateGo, List.append_nil] at hnd hdisj hact ⊢
    exact ⟨hnd, hdisj, by simp, hact, hina, fun i hi => hi, fun i hi => Or.inl hi⟩
  | cons idx rest ih =>
    intro pool na ia hnd hdisj hact hina
    have hidxmem : idx ∈ na ++ idx :: rest := by simp
    have hidxna : idx ∉ na := by
      rcases List.nodup_append.mp hnd with ⟨_, _, hdj⟩
      intro h
      exact hdj h (List.mem_cons_self idx rest)
    have hidxrest : idx ∉ rest := by
      rcases List.nodup_append.mp hnd with ⟨_, hcons, _⟩
      exact (List.nodup_cons.mp hcons).1
    have hidxia : idx ∉ ia := hdisj idx hidxmem
    rw [poolUpdateGo]
    by_cases hlife : 0 < (particleStep fric ts (pool idx)).life
    · rw [if_pos hlife]
      have heq : na ++ [idx] ++ rest = na ++ idx :: rest := by simp
      have h1 : (na ++ [idx] ++ rest).Nodup := by rw [heq]; exact hnd
      have h2 : ∀ i ∈ na ++ [idx] ++ rest, i ∉ ia := by
        rw [heq]
        exact hdisj
      have h3 : ∀ i ∈ na ++ [idx] ++ rest,
          ((Function.update pool idx (particleStep fric ts (pool idx))) i).active
            = true := by
        intro i hi
        by_cases he : i = idx
        · subst he
          rw [Function.update_same]
          exact hact i hidxmem
        · rw [Function.update_noteq he]
          exact hact i (by rw [heq] at hi; exact hi)
      have h4 : ∀ i ∈ ia,
          ((Function.update pool idx (particleStep fric ts (pool idx))) i).active
            = false := by
        intro i hi
        have hne : i ≠ idx := fun he => hidxia (he ▸ hi)
        rw [Function.update_noteq hne]
        exact hina i hi
      obtain ⟨c1, c2, c3, c4, c5, c6, c7⟩ :=
        ih (Function.update pool idx (particleStep fric ts (pool idx)))
          (na ++ [idx]) ia h1 h2 h3 h4
      refine ⟨c1, c2, ?_, c4, c5, ?_, ?_⟩
      · have hc3 := c3
        simp only [List.length_append, List.length_singleton, List.length_nil,
          List.length_cons] at hc3 ⊢
        omega
      · intro i hi
        have := c6 i hi
        rw [heq] at this
        exact this
      · intro i hi
        rcases c7 i hi with h | h
        · exact Or.inl h
        · exact Or.inr (List.mem_cons_of_mem idx h)
    · rw [if_neg hlife]
      have hsub : List.Sublist (na ++ rest) (na ++ idx :: rest) :=
        (List.sublist_cons_self idx rest).append_left na
      have h1 : (na ++ rest).Nodup := hnd.sublist hsub
      have h2 : ∀ i ∈ na ++ rest, i ∉ insert idx ia := by
        intro i hi
        have hine : i ≠ idx := by
          intro he
          subst he
          rcases List.mem_append.mp hi with h | h
          · exact hidxna h
          · exact hidxrest h
        have : i ∈ na ++ idx :: rest := hsub.mem hi
        simp only [Finset.mem_insert, not_or]
        exact ⟨hine, hdisj i this⟩
      have h3 : ∀ i ∈ na ++ rest,
          ((Function.update pool idx
            { particleStep fric ts (pool idx) with active := false }) i).active
            = true := by
        intro i hi
        have hine : i ≠ idx := by
          intro he
          subst he
          rcases List.mem_append.mp hi with h | h
          · exact hidxna h
          · exact hidxrest h
        rw [Function.update_noteq hine]
        exact hact i (hsub.mem hi)
      have h4 : ∀ i ∈ insert idx ia,
          ((Function.update pool idx
            { particleStep fric ts (pool idx) with active := false }) i).active
            = false := by
        intro i hi
        rcases Finset.mem_insert.mp hi with rfl | hi
        · rw [Function.update_same]
        · have hne : i ≠ idx := fun he => hidxia (he ▸ hi)
          rw [Function.update_noteq hne]
          exact hina i hi
      obtain ⟨c1, c2, c3, c4, c5, c6, c7⟩ :=
        ih (Function.update pool idx
            { particleStep fric ts (pool idx) with active := false })
          na (insert idx ia) h1 h2 h3 h4
      refine ⟨c1, c2, ?_, c4, c5, ?_, ?_⟩
      · have hc3 := c3
        rw [Finset.card_insert_of_not_mem hidxia] at hc3
        simp only [List.length_cons, List.length_nil] at hc3 ⊢
        omega
      · intro i hi
        have := c6 i hi
        rcases List.mem_append.mp this with h | h
        · exact List.mem_append.mpr (Or.inl h)
        · exact List.mem_append.mpr (Or.inr (List.mem_cons_of_mem idx h))
      · intro i hi
        rcases c7 i hi with h | h
        · rcases Finset.mem_insert.mp h with rfl | h
          · exact Or.inr (List.mem_cons_self i rest)
          · exact Or.inl h
        · exact Or.inr (List.mem_cons_of_mem idx h)

theorem poolUpdate_inv (fric : ℚ → ℚ) (ts : ℚ) (p : ParticlePool)
    (hp : PoolInv p) : PoolInv (poolUpdate fric ts p) := by
  obtain ⟨c1, c2, c3, c4, c5, c6, c7⟩ :=
    poolUpdateGo_inv fric ts p.activeIndices p.pool [] p.inactiveIndices
      (by simpa using hp.nodup) (by simpa using hp.disj)
      (by simpa using hp.activeFlag) hp.inactiveFlag
  refine ⟨c1, c2, ?_, ?_, ?_, c4, c5⟩
  · intro i hi
    have := c6 i hi
    simp only [List.nil_append] at this
    exact hp.activeLt i this
  · intro i hi
    rcases c7 i hi with h | h
    · exact hp.inactiveLt i h
    · exact hp.activeLt i h
  · simp only [poolUpdate]
    rw [c3]
    simp only [List.length_nil]
    have := hp.count
    omega

theorem poolGet_spec (p : ParticlePool) (hp : PoolInv p) :
    ((poolGet p).1 = none ↔ p.inactiveIndices = ∅) ∧
    (∀ q, (poolGet p).1 = some q →
      ∃ idx ∈ p.inactiveIndices, (p.pool idx).active = false ∧
        q = { p.pool idx with active := true } ∧
        ((poolGet p).2.pool idx).active = true) := by
  unfold poolGet
  split
  · rename_i h
    constructor
    · simp only
      constructor
      · intro hnone
        exact absurd hnone (by simp)
      · intro hempty
        exact absurd hempty (Finset.nonempty_iff_ne_empty.mp h)
    · intro q hq
      simp only [Option.some.injEq] at hq
      refine ⟨p.inactiveIndices.min' h, p.inactiveIndices.min'_mem h,
        hp.inactiveFlag _ (p.inactiveIndices.min'_mem h), hq.symm, ?_⟩
      simp [Function.update_same]
  · rename_i h
    constructor
    · simp [Finset.not_nonempty_iff_eq_empty.mp h]
    · intro q hq
      exact absurd hq (by simp)

/-- Claim C6: from the freshly constructed pool on, every operation
(`get`, `update`, `clear`) preserves the pool invariant — active and
inactive index sets disjoint, counts summing to the fixed capacity — and
`get` never hands out a slot already marked active: it returns `none`
exactly when no inactive slot exists, and otherwise returns a slot whose
flag was false before the call, marked active by the call. -/
theorem C6_pool_invariant (n : ℕ) (fric : ℚ → ℚ) (ts : ℚ) (p : ParticlePool)
    (hp : PoolInv p) :
    PoolInv (initPool n) ∧
    PoolInv (poolGet p).2 ∧
    PoolInv (poolUpdate fric ts p) ∧
    PoolInv (poolClear p) ∧
    ((poolGet p).1 = none ↔ p.inactiveIndices = ∅) ∧
    (∀ q, (poolGet p).1 = some q →
      ∃ idx ∈ p.inactiveIndices, (p.pool idx).active = false ∧
        q = { p.pool idx with active := true } ∧
        ((poolGet p).2.pool idx).active = true) :=
  ⟨initPool_inv n, poolGet_inv p hp, poolUpdate_inv fric ts p hp,
    poolClear_inv p hp, (poolGet_spec p hp).1, (poolGet_spec p hp).2⟩

/-- Witness for C6: a fresh pool of capacity 3, friction factor 0.95,
time scale 1. -/
theorem C6_pool_invariant_witness :
    PoolInv (initPool 3) ∧
      (PoolInv (initPool 3) ∧
        PoolInv (poolGet (initPool 3)).2 ∧
        PoolInv (poolUpdate (fun _ => 19/20) 1 (initPool 3)) ∧
        PoolInv (poolClear (initPool 3)) ∧
        ((poolGet (initPool 3)).1 = none ↔ (initPool 3).inactiveIndices = ∅) ∧
        (∀ q, (poolGet (initPool 3)).1 = some q →
          ∃ idx ∈ (initPool 3).inactiveIndices,
            ((initPool 3).pool idx).active = false ∧
            q = { (initPool 3).pool idx with active := true } ∧
            ((poolGet (initPool 3)).2.pool idx).active = true)) :=
  ⟨initPool_inv 3,
    C6_pool_invariant 3 (fun _ => 19/20) 1 (initPool 3) (initPool_inv 3)⟩


end AC1
